import Mathlib

/-!
Verification of the esp-idf SDIO-slave driver surface and the
temperature-sensor driver.

The temperature-sensor part is a shallow embedding of
`components/esp_driver_tsens/src/temperature_sensor.c`.  The SDIO-slave part
of the repository ships only the interface header
`components/esp_driver_sdio/include/driver/sdio_slave.h`; the operations
behind it are modelled from the specification, as noted on each definition.
-/

namespace EspIdf

/-- Error taxonomy of `esp_err_t` values used by the drivers. -/
inductive EspErr where
  | invalidArg    -- ESP_ERR_INVALID_ARG
  | invalidState  -- ESP_ERR_INVALID_STATE
  | timeout       -- ESP_ERR_TIMEOUT
  | notFinished   -- ESP_ERR_NOT_FINISHED
  | noMem         -- ESP_ERR_NO_MEM
  | notFound      -- ESP_ERR_NOT_FOUND
  | fail          -- ESP_FAIL
  deriving DecidableEq, Repr

/-! ## Temperature sensor (`temperature_sensor.c`) -/

/-- One row of `temperature_sensor_attributes` (type
`temperature_sensor_attribute_t`): measurement range, register value,
offset and maximal error of one hardware range setting. -/
structure TsensAttr where
  reg_val : ℤ
  range_min : ℤ
  range_max : ℤ
  error_max : ℤ
  offset : ℤ
  deriving DecidableEq, Repr

/-- Function `accuracy_compare` from `temperature_sensor.c`:
`return ((*(...)p1).error_max < (*(...)p2).error_max) ? -1 : 1;` -/
def accuracy_compare (p1 p2 : TsensAttr) : ℤ :=
  if p1.error_max < p2.error_max then -1 else 1

/-- Enumeration `temp_sensor_fsm_t`: the driver-state field stored in the handle. -/
inductive TsensFsm where
  | init    -- TEMP_SENSOR_FSM_INIT
  | enable  -- TEMP_SENSOR_FSM_ENABLE
  deriving DecidableEq, Repr

/-- The fields of `temperature_sensor_obj_t` that the embedded operations
read or write: the clock source, the driver state and the chosen
attribute row. -/
structure TsensObj where
  clk_src : ℤ
  fsm : TsensFsm
  tsens_attribute : Option TsensAttr
  deriving DecidableEq, Repr

/-- Structure `temperature_sensor_config_t`: the caller-supplied configuration. -/
structure TsensConfig where
  range_min : ℤ
  range_max : ℤ
  clk_src : ℤ
  deriving DecidableEq, Repr

/-- The zero-filled object produced by
`heap_caps_calloc(1, sizeof(temperature_sensor_obj_t), ...)` inside
`temperature_sensor_install`: every field is zero / null.  The `fsm`
field's zero value is `TEMP_SENSOR_FSM_INIT`, the first enumerator. -/
def callocTsens : TsensObj :=
  { clk_src := 0, fsm := TsensFsm.init, tsens_attribute := none }

/-- The clock-source selection block of `temperature_sensor_install`
(lines 139-143), run on the freshly calloc-ed object:
`if (tsens->clk_src == 0) tsens->clk_src = TEMPERATURE_SENSOR_CLK_SRC_DEFAULT;
else tsens->clk_src = tsens_config->clk_src;`.
`default_clk` stands for the platform constant
`TEMPERATURE_SENSOR_CLK_SRC_DEFAULT`. -/
def install_select_clk_src (default_clk : ℤ) (tsens : TsensObj)
    (tsens_config : TsensConfig) : TsensObj :=
  if tsens.clk_src = 0 then { tsens with clk_src := default_clk }
  else { tsens with clk_src := tsens_config.clk_src }

/-- Function `temperature_sensor_choose_best_range`: the first row of the sorted
copy of the attribute table whose range contains the configured range is
selected; with no such row the attribute stays null and the function
fails `ESP_ERR_INVALID_ARG`. -/
def temperature_sensor_choose_best_range (sorted : List TsensAttr)
    (tsens_config : TsensConfig) : Option TsensAttr :=
  sorted.find? fun a =>
    tsens_config.range_min ≥ a.range_min ∧ tsens_config.range_max ≤ a.range_max

/-- Function `temperature_sensor_install` (`temperature_sensor.c`, lines 128-186),
with the platform calls abstracted: argument and double-install checks,
zero-allocation of the handle, the clock-source selection block, range
choice over the sorted attribute table, and the final
`tsens->fsm = TEMP_SENSOR_FSM_INIT`.  `sorted_attrs` is the sorted copy
built by `temperature_sensor_attribute_table_sort`; `already_installed`
models `s_tsens_attribute_copy != NULL`. -/
def temperature_sensor_install (default_clk : ℤ) (sorted_attrs : List TsensAttr)
    (already_installed : Bool) (tsens_config : Option TsensConfig) :
    Except EspErr TsensObj :=
  match tsens_config with
  | none => .error .invalidArg
  | some cfg =>
    if already_installed then .error .invalidState
    else
      let tsens := callocTsens
      let tsens := install_select_clk_src default_clk tsens cfg
      match temperature_sensor_choose_best_range sorted_attrs cfg with
      | none => .error .invalidArg
      | some attr =>
          .ok { tsens with tsens_attribute := some attr, fsm := TsensFsm.init }

/-- Function `temperature_sensor_enable` (lines 239-261): null handle fails
`ESP_ERR_INVALID_ARG`; a handle not in `TEMP_SENSOR_FSM_INIT` fails
`ESP_ERR_INVALID_STATE`; otherwise the hardware is started and
`tsens->fsm = TEMP_SENSOR_FSM_ENABLE`. -/
def temperature_sensor_enable (tsens : Option TsensObj) :
    Except EspErr TsensObj :=
  match tsens with
  | none => .error .invalidArg
  | some t =>
    if t.fsm = TsensFsm.init then .ok { t with fsm := TsensFsm.enable }
    else .error .invalidState

/-- Function `temperature_sensor_disable` (lines 263-281): null handle fails
`ESP_ERR_INVALID_ARG`; a handle not in `TEMP_SENSOR_FSM_ENABLE` fails
`ESP_ERR_INVALID_STATE`; otherwise the hardware is stopped and
`tsens->fsm = TEMP_SENSOR_FSM_INIT`. -/
def temperature_sensor_disable (tsens : Option TsensObj) :
    Except EspErr TsensObj :=
  match tsens with
  | none => .error .invalidArg
  | some t =>
    if t.fsm = TsensFsm.enable then .ok { t with fsm := TsensFsm.init }
    else .error .invalidState

/-- Function `temperature_sensor_uninstall` (lines 188-223): null handle fails
`ESP_ERR_INVALID_ARG`; a handle not in `TEMP_SENSOR_FSM_INIT` fails
`ESP_ERR_INVALID_STATE`; otherwise the resources are released and the
handle freed. -/
def temperature_sensor_uninstall (tsens : Option TsensObj) :
    Except EspErr Unit :=
  match tsens with
  | none => .error .invalidArg
  | some t =>
    if t.fsm = TsensFsm.init then .ok ()
    else .error .invalidState

/-! ## SDIO slave driver

The repository contains only the interface header `driver/sdio_slave.h` for
this driver; the operations below are modelled from the specification, as
noted on each definition. -/

/-- Constant `SDIO_SLAVE_RECV_MAX_BUFFER` from `sdio_slave.h`, line 17:
`#define SDIO_SLAVE_RECV_MAX_BUFFER  (4096-4)`. -/
def SDIO_SLAVE_RECV_MAX_BUFFER : ℕ := 4096 - 4

/-- State tag of one registered receive buffer, following the spec's
buffer-descriptor state machine. -/
inductive BufState where
  | idle
  | queuedForDMA
  | completedAwaitingPickup
  deriving DecidableEq, Repr

/-- Association list of registered buffers: handle, start address, state. -/
abbrev BufList : Type := List (ℕ × ℕ × BufState)

/-- Resolve a handle to the address and state of its buffer. -/
def lookupBuf : BufList → ℕ → Option (ℕ × BufState)
  | [], _ => none
  | b :: bs, h => if b.1 = h then some b.2 else lookupBuf bs h

/-- Remove the descriptor of a handle from the list. -/
def removeBuf : BufList → ℕ → BufList
  | [], _ => []
  | b :: bs, h => if b.1 = h then removeBuf bs h else b :: removeBuf bs h

/-- Set the state tag of the buffer of a handle, keeping its address. -/
def setBufState : BufList → ℕ → BufState → BufList
  | [], _, _ => []
  | b :: bs, h, s =>
      if b.1 = h then (b.1, b.2.1, s) :: setBufState bs h s
      else b :: setBufState bs h s

/-- Modelled from the spec: the Buffer Registry (§4.1) of the SDIO-slave
driver, whose implementation is not in the repository.  `capacity` is the
bounded number of descriptor slots fixed at initialization, `next` the
next fresh handle. -/
structure Registry where
  capacity : ℕ
  next : ℕ
  bufs : BufList
  deriving DecidableEq, Repr

/-- Resolve a handle in a registry. -/
def Registry.lookup (r : Registry) (h : ℕ) : Option (ℕ × BufState) :=
  lookupBuf r.bufs h

/-- Handles held in a registry are below the fresh counter. -/
def Registry.Fresh (r : Registry) : Prop :=
  ∀ b ∈ r.bufs, b.1 < r.next

/-- Modelled from the spec: `sdio_slave_recv_register_buf` (declared in
`sdio_slave.h`, lines 112-121; implementation not in the repository).
Registration fails `ESP_ERR_INVALID_ARG` unless the start address is
32-bit aligned and DMA capable, fails `ESP_ERR_NO_MEM` when the
descriptor slots are exhausted, and otherwise records the buffer as
`Idle` under a fresh stable handle. -/
def sdio_slave_recv_register_buf (r : Registry) (start : ℕ)
    (dma_capable : Bool) : Except EspErr (Registry × ℕ) :=
  if start % 4 = 0 ∧ dma_capable = true then
    if r.capacity ≤ r.bufs.length then .error .noMem
    else .ok ({ r with next := r.next + 1,
                       bufs := r.bufs ++ [(r.next, start, BufState.idle)] },
              r.next)
  else .error .invalidArg

/-- Modelled from the spec: `sdio_slave_recv_unregister_buf` (declared in
`sdio_slave.h`, lines 123-129; implementation not in the repository).
Fails `ESP_ERR_INVALID_ARG` when the handle is null or unknown or the
buffer is not `Idle`; otherwise removes the descriptor. -/
def sdio_slave_recv_unregister_buf (r : Registry) (handle : Option ℕ) :
    Except EspErr Registry :=
  match handle with
  | none => .error .invalidArg
  | some h =>
    match r.lookup h with
    | some (_, BufState.idle) => .ok { r with bufs := removeBuf r.bufs h }
    | _ => .error .invalidArg

/-- Modelled from the spec: `sdio_slave_recv_load_buf` (declared in
`sdio_slave.h`, lines 131-141; implementation not in the repository).
Moves a buffer from `Idle` to `QueuedForDMA`; fails `ESP_ERR_INVALID_ARG`
when the handle is null or unknown or the buffer is not `Idle`. -/
def sdio_slave_recv_load_buf (r : Registry) (handle : Option ℕ) :
    Except EspErr Registry :=
  match handle with
  | none => .error .invalidArg
  | some h =>
    match r.lookup h with
    | some (_, BufState.idle) =>
        .ok { r with bufs := setBufState r.bufs h BufState.queuedForDMA }
    | _ => .error .invalidArg

/-- Modelled from the spec: the sequence of results of successive
`sdio_slave_recv_packet` calls (declared in `sdio_slave.h`, lines 143-163;
implementation not in the repository) while one host packet of `len`
bytes is delivered into the loaded buffers `bufs`, each of capacity
`cap`.  Every buffer is filled up to its capacity except possibly the
last; each result carries the handle of the buffer, the byte count
placed in it, and whether the call returned `ESP_ERR_NOT_FINISHED`
(more data of the packet follows) rather than `ESP_OK`. -/
def recvPacketCalls (cap : ℕ) : List ℕ → ℕ → List (ℕ × ℕ × Bool)
  | [], _ => []
  | b :: bs, len =>
      if len ≤ cap ∨ cap = 0 then [(b, len, false)]
      else (b, cap, true) :: recvPacketCalls cap bs (len - cap)

/-- Send queue item: buffer address, length, opaque user tag (`arg`). -/
structure SendItem where
  addr : ℕ
  len : ℕ
  arg : ℕ
  deriving DecidableEq, Repr

/-- Modelled from the spec: the Send Pipeline state (§4.3), a bounded
FIFO of size `send_queue_size` fixed at initialization. -/
structure SendState where
  send_queue_size : ℕ
  queue : List SendItem
  deriving DecidableEq, Repr

/-- Modelled from the spec: `sdio_slave_send_queue` (declared in
`sdio_slave.h`, lines 194-208; implementation not in the repository).
Fails `ESP_ERR_INVALID_ARG` when the length is zero or exceeds
`SDIO_SLAVE_RECV_MAX_BUFFER` (4092) bytes; when the queue is full,
`drains_within_wait` tells whether a finished transfer frees a slot
before `wait` elapses — if not the call fails `ESP_ERR_TIMEOUT`,
otherwise the oldest item has been reclaimed and the new item is
appended. -/
def sdio_slave_send_queue (st : SendState) (addr len arg : ℕ)
    (drains_within_wait : Bool) : Except EspErr SendState :=
  if len = 0 ∨ SDIO_SLAVE_RECV_MAX_BUFFER < len then .error .invalidArg
  else if st.send_queue_size ≤ st.queue.length then
    if drains_within_wait then
      .ok { st with queue := st.queue.drop 1 ++ [⟨addr, len, arg⟩] }
    else .error .timeout
  else .ok { st with queue := st.queue ++ [⟨addr, len, arg⟩] }

/-- Modelled from the spec: `sdio_slave_read_reg` (declared in
`sdio_slave.h`, lines 233-241; implementation not in the repository).
The register block shared with the host is the 64-byte list `regs`;
reads are accepted over the general-purpose addresses 0-27 and 32-63. -/
def sdio_slave_read_reg (regs : List ℕ) (pos : ℤ) : Option ℕ :=
  if (0 ≤ pos ∧ pos ≤ 27) ∨ (32 ≤ pos ∧ pos ≤ 63) then regs.get? pos.toNat
  else none

/-- Modelled from the spec: `sdio_slave_write_reg` (declared in
`sdio_slave.h`, lines 243-252; implementation not in the repository).
Writes to the reserved interrupt-vector addresses 28-31 and to any
address outside 0-63 fail `ESP_ERR_INVALID_ARG`; other writes store the
byte. -/
def sdio_slave_write_reg (regs : List ℕ) (pos : ℤ) (reg : ℕ) :
    Except EspErr (List ℕ) :=
  if 28 ≤ pos ∧ pos ≤ 31 then .error .invalidArg
  else if pos < 0 ∨ 63 < pos then .error .invalidArg
  else .ok (regs.set pos.toNat reg)

/-- Modelled from the spec: `sdio_slave_wait_int` (declared in
`sdio_slave.h`, lines 282-292; implementation not in the repository),
at zero timeout: if the host-originated general-purpose interrupt bit
`pos` is pending it is atomically cleared and the call succeeds,
otherwise the call fails `ESP_ERR_TIMEOUT`.  `pending` is the 8-bit
pending mask. -/
def sdio_slave_wait_int (pending : Fin 8 → Bool) (pos : Fin 8) :
    Except EspErr (Fin 8 → Bool) :=
  if pending pos then .ok (fun i => if i = pos then false else pending i)
  else .error .timeout

/-- Modelled from the spec: the host raising general-purpose interrupt
bit `pos` again. -/
def host_raise_int (pending : Fin 8 → Bool) (pos : Fin 8) : Fin 8 → Bool :=
  fun i => if i = pos then true else pending i

/-- Whether the driver hardware is started (`sdio_slave_start` /
`sdio_slave_stop`). -/
inductive DriverRun where
  | stopped
  | running
  deriving DecidableEq, Repr

/-- Modelled from the spec: the driver lifecycle state (§4.5) together
with the data `sdio_slave_reset` clears: the registered buffers, the
receive completion queue, and the `PKT_LEN` and `TOKEN1` counters. -/
structure DriverState where
  run : DriverRun
  reg : Registry
  recvCompleted : List ℕ
  pkt_len : ℕ
  token1 : ℕ
  deriving DecidableEq, Repr

/-- Modelled from the spec: `sdio_slave_reset` (declared in
`sdio_slave.h`, lines 93-99; implementation not in the repository).
Fails `ESP_ERR_INVALID_STATE` while the driver is running; otherwise
clears the data still in the driver — every buffer back to `Idle`, no
completions pending — and resets the `PKT_LEN` and `TOKEN1` counters,
leaving the stopped/running state unchanged. -/
def sdio_slave_reset (st : DriverState) : Except EspErr DriverState :=
  match st.run with
  | DriverRun.running => .error .invalidState
  | DriverRun.stopped =>
      .ok { st with
            reg := { st.reg with
                     bufs := st.reg.bufs.map fun b => (b.1, b.2.1, BufState.idle) },
            recvCompleted := [], pkt_len := 0, token1 := 0 }

/-- Modelled from the spec: `sdio_slave_reset_hw` (declared in
`sdio_slave.h`, lines 101-107; implementation not in the repository).
Additionally resets the hardware, which is outside this model; the
driver-visible contract is that of `sdio_slave_reset`. -/
def sdio_slave_reset_hw (st : DriverState) : Except EspErr DriverState :=
  match st.run with
  | DriverRun.running => .error .invalidState
  | DriverRun.stopped =>
      .ok { st with
            reg := { st.reg with
                     bufs := st.reg.bufs.map fun b => (b.1, b.2.1, BufState.idle) },
            recvCompleted := [], pkt_len := 0, token1 := 0 }

/-! ## Theorems: temperature sensor -/

/-- C8: for every configuration passed to `temperature_sensor_install`, the
clock source stored in the returned handle is always
`TEMPERATURE_SENSOR_CLK_SRC_DEFAULT`: the handle is zero-allocated, so the
test `tsens->clk_src == 0` is always true and the branch copying
`tsens_config->clk_src` is never taken; the caller's `clk_src` field has no
effect on the result of install. -/
theorem tsens_install_clk_src_always_default (default_clk : ℤ)
    (attrs : List TsensAttr) (inst : Bool) (cfg : TsensConfig) :
    (∀ t, temperature_sensor_install default_clk attrs inst (some cfg) =
        .ok t → t.clk_src = default_clk) ∧
    (∀ c : ℤ, temperature_sensor_install default_clk attrs inst (some cfg) =
        temperature_sensor_install default_clk attrs inst
          (some { cfg with clk_src := c })) := by
  constructor
  · intro t h
    unfold temperature_sensor_install at h
    split at h
    · exact absurd h (by simp)
    · split at h
      · exact absurd h (by simp)
      · simp only [install_select_clk_src, callocTsens, ite_true] at h
        split at h
        · exact absurd h (by simp)
        · injection h with h
          subst h
          rfl
  · intro c
    rfl

/-- Witness for C8 at a concrete input: with the platform default clock 7
and a configuration asking for clock source 3, install stores 7. -/
theorem tsens_install_clk_src_always_default_witness :
    TsensObj.clk_src
      ⟨7, TsensFsm.init, some ⟨1, -10, 80, 2, 0⟩⟩ = 7 :=
  (tsens_install_clk_src_always_default 7 [⟨1, -10, 80, 2, 0⟩] false
    ⟨0, 50, 3⟩).1 ⟨7, TsensFsm.init, some ⟨1, -10, 80, 2, 0⟩⟩ rfl

/-- C9: a successful install leaves the handle's fsm field at
`TEMP_SENSOR_FSM_INIT`; enable requires INIT and sets ENABLE; disable
requires ENABLE and sets INIT; uninstall requires INIT and fails with
`ESP_ERR_INVALID_STATE` while the sensor is enabled, so an enabled sensor
can never be uninstalled without first being disabled. -/
theorem tsens_fsm_lifecycle :
    (∀ (dk : ℤ) (attrs : List TsensAttr) (inst : Bool)
        (cfg : Option TsensConfig) (t : TsensObj),
        temperature_sensor_install dk attrs inst cfg = .ok t →
          t.fsm = TsensFsm.init) ∧
    (∀ t : TsensObj, t.fsm = TsensFsm.init →
        temperature_sensor_enable (some t) =
          .ok { t with fsm := TsensFsm.enable }) ∧
    (∀ t : TsensObj, t.fsm = TsensFsm.enable →
        temperature_sensor_enable (some t) = .error .invalidState) ∧
    (∀ t : TsensObj, t.fsm = TsensFsm.enable →
        temperature_sensor_disable (some t) =
          .ok { t with fsm := TsensFsm.init }) ∧
    (∀ t : TsensObj, t.fsm = TsensFsm.init →
        temperature_sensor_disable (some t) = .error .invalidState) ∧
    (∀ t : TsensObj, t.fsm = TsensFsm.init →
        temperature_sensor_uninstall (some t) = .ok ()) ∧
    (∀ t : TsensObj, t.fsm = TsensFsm.enable →
        temperature_sensor_uninstall (some t) = .error .invalidState) := by
  refine ⟨?_, ?_, ?_, ?_, ?_, ?_, ?_⟩
  · intro dk attrs inst cfg t h
    unfold temperature_sensor_install at h
    cases cfg with
    | none => exact absurd h (by simp)
    | some c =>
      simp only at h
      split at h
      · exact absurd h (by simp)
      · split at h
        · exact absurd h (by simp)
        · injection h with h
          subst h
          rfl
  · intro t h; simp [temperature_sensor_enable, h]
  · intro t h; simp [temperature_sensor_enable, h]
  · intro t h; simp [temperature_sensor_disable, h]
  · intro t h; simp [temperature_sensor_disable, h]
  · intro t h; simp [temperature_sensor_uninstall, h]
  · intro t h; simp [temperature_sensor_uninstall, h]

/-- Witness for C9 at a concrete input: an enabled handle cannot be
uninstalled, and disabling it first returns it to INIT. -/
theorem tsens_fsm_lifecycle_witness :
    temperature_sensor_uninstall (some ⟨7, TsensFsm.enable, none⟩) =
        .error .invalidState ∧
    temperature_sensor_disable (some ⟨7, TsensFsm.enable, none⟩) =
        .ok ⟨7, TsensFsm.init, none⟩ :=
  ⟨tsens_fsm_lifecycle.2.2.2.2.2.2 ⟨7, TsensFsm.enable, none⟩ rfl,
   tsens_fsm_lifecycle.2.2.2.1 ⟨7, TsensFsm.enable, none⟩ rfl⟩

/-- C10: the qsort comparator `accuracy_compare` returns only -1 or 1,
never 0; when the two records have equal `error_max` it returns 1 for both
argument orders, so it is not antisymmetric and does not define a
consistent total order on records with equal `error_max`. -/
theorem accuracy_compare_never_zero_not_antisymmetric :
    (∀ p1 p2 : TsensAttr,
        accuracy_compare p1 p2 = -1 ∨ accuracy_compare p1 p2 = 1) ∧
    (∀ p1 p2 : TsensAttr, accuracy_compare p1 p2 ≠ 0) ∧
    (∀ p1 p2 : TsensAttr, p1.error_max = p2.error_max →
        0 < accuracy_compare p1 p2 ∧ 0 < accuracy_compare p2 p1) := by
  refine ⟨?_, ?_, ?_⟩
  · intro p1 p2
    unfold accuracy_compare
    split
    · exact Or.inl rfl
    · exact Or.inr rfl
  · intro p1 p2
    unfold accuracy_compare
    split
    · decide
    · decide
  · intro p1 p2 h
    unfold accuracy_compare
    rw [h]
    simp

/-- Witness for C10 at a concrete input: two distinct records with equal
`error_max` compare positively in both orders. -/
theorem accuracy_compare_never_zero_not_antisymmetric_witness :
    0 < accuracy_compare ⟨1, -10, 80, 2, 0⟩ ⟨2, -20, 100, 2, 0⟩ ∧
    0 < accuracy_compare ⟨2, -20, 100, 2, 0⟩ ⟨1, -10, 80, 2, 0⟩ :=
  accuracy_compare_never_zero_not_antisymmetric.2.2
    ⟨1, -10, 80, 2, 0⟩ ⟨2, -20, 100, 2, 0⟩ rfl

/-! ## Theorems: SDIO slave -/

/-! Helper lemmas about the buffer association list. -/

theorem lookupBuf_removeBuf (l : BufList) (h : ℕ) :
    lookupBuf (removeBuf l h) h = none := by
  induction l with
  | nil => rfl
  | cons b bs ih =>
    by_cases hb : b.1 = h
    · simpa [removeBuf, hb] using ih
    · simpa [removeBuf, lookupBuf, hb] using ih

theorem lookupBuf_setBufState_self (l : BufList) (h : ℕ) (s : BufState) :
    lookupBuf (setBufState l h s) h =
      (lookupBuf l h).map fun p => (p.1, s) := by
  induction l with
  | nil => rfl
  | cons b bs ih =>
    by_cases hb : b.1 = h
    · simp [setBufState, lookupBuf, hb]
    · simpa [setBufState, lookupBuf, hb] using ih

theorem lookupBuf_setBufState_ne (l : BufList) (h h2 : ℕ) (s : BufState)
    (hne : h2 ≠ h) :
    lookupBuf (setBufState l h s) h2 = lookupBuf l h2 := by
  induction l with
  | nil => rfl
  | cons b bs ih =>
    have hh2 : ¬h = h2 := fun he => hne he.symm
    by_cases hb : b.1 = h
    · simpa [setBufState, lookupBuf, hb, hh2] using ih
    · by_cases hc : b.1 = h2
      · simp [setBufState, lookupBuf, hb, hc, hne]
      · simpa [setBufState, lookupBuf, hb, hc] using ih

theorem lookupBuf_append_of_none (l1 l2 : BufList) (h : ℕ)
    (hn : lookupBuf l1 h = none) :
    lookupBuf (l1 ++ l2) h = lookupBuf l2 h := by
  induction l1 with
  | nil => rfl
  | cons b bs ih =>
    by_cases hb : b.1 = h
    · simp [lookupBuf, hb] at hn
    · simp only [lookupBuf, hb, if_neg] at hn
      simpa [lookupBuf, hb] using ih hn

theorem lookupBuf_append_of_some (l1 l2 : BufList) (h : ℕ)
    (p : ℕ × BufState) (hs : lookupBuf l1 h = some p) :
    lookupBuf (l1 ++ l2) h = some p := by
  induction l1 with
  | nil => simp [lookupBuf] at hs
  | cons b bs ih =>
    by_cases hb : b.1 = h
    · simp only [lookupBuf, hb, if_pos] at hs ⊢
      simpa [lookupBuf, hb] using hs
    · simp only [lookupBuf, hb, if_neg] at hs
      simpa [lookupBuf, hb] using ih hs

theorem lookupBuf_none_of_fresh (l : BufList) (n : ℕ)
    (hf : ∀ b ∈ l, b.1 < n) :
    lookupBuf l n = none := by
  induction l with
  | nil => rfl
  | cons b bs ih =>
    have hb : b.1 ≠ n := Nat.ne_of_lt (hf b (by simp))
    have hbs : ∀ b₂ ∈ bs, b₂.1 < n := fun b₂ hm => hf b₂ (by simp [hm])
    simpa [lookupBuf, hb] using ih hbs

theorem load_buf_ok_bufs (r : Registry) (hld : ℕ) (r2 : Registry)
    (hload : sdio_slave_recv_load_buf r (some hld) = .ok r2) :
    r2 = { r with bufs := setBufState r.bufs hld BufState.queuedForDMA } := by
  have hload' : (match r.lookup hld with
      | some (_, BufState.idle) =>
          Except.ok
            { r with bufs := setBufState r.bufs hld BufState.queuedForDMA }
      | _ => Except.error EspErr.invalidArg) = Except.ok r2 := hload
  cases hp : r.lookup hld with
  | none =>
    rw [hp] at hload'
    exact absurd hload' (by simp)
  | some p =>
    obtain ⟨a, s⟩ := p
    cases s with
    | idle =>
      rw [hp] at hload'
      exact (Except.ok.inj hload').symm
    | queuedForDMA =>
      rw [hp] at hload'
      exact absurd hload' (by simp)
    | completedAwaitingPickup =>
      rw [hp] at hload'
      exact absurd hload' (by simp)

theorem lookupBuf_map_idle (l : BufList) (h : ℕ) :
    lookupBuf (l.map fun b => (b.1, b.2.1, BufState.idle)) h =
      (lookupBuf l h).map fun p => (p.1, BufState.idle) := by
  induction l with
  | nil => rfl
  | cons b bs ih =>
    by_cases hb : b.1 = h
    · simp [lookupBuf, hb]
    · simpa [lookupBuf, hb] using ih

/-- C1: a packet spanning several receive buffers is returned by
successive `sdio_slave_recv_packet` calls as those buffers in the order
they were filled; every call but the last reports `ESP_ERR_NOT_FINISHED`
(more data follows) and the call returning the terminal buffer reports
`ESP_OK`.  A packet of size `k * cap + r` with `0 < r < cap` produces
exactly `k + 1` completions: the first `k` of length `cap` with the
more-data status, the last of length `r` without. -/
theorem sdio_recv_packet_multibuffer (cap k r : ℕ) (bufs : List ℕ)
    (hcap : 0 < cap) (hr : 0 < r) (hrc : r < cap)
    (hlen : k + 1 ≤ bufs.length) :
    (recvPacketCalls cap bufs (k * cap + r)).map (fun c => c.1) =
      bufs.take (k + 1) ∧
    (recvPacketCalls cap bufs (k * cap + r)).map (fun c => c.2) =
      List.replicate k (cap, true) ++ [(r, false)] := by
  induction k generalizing bufs with
  | zero =>
    cases bufs with
    | nil => simp at hlen
    | cons b bs =>
      have hle : r ≤ cap := le_of_lt hrc
      simp [recvPacketCalls, hle]
  | succ n ih =>
    cases bufs with
    | nil => simp at hlen
    | cons b bs =>
      have hcond : ¬((n + 1) * cap + r ≤ cap ∨ cap = 0) := by
        push_neg
        have hmul : cap ≤ (n + 1) * cap := by
          calc cap = 1 * cap := (one_mul cap).symm
          _ ≤ (n + 1) * cap := Nat.mul_le_mul_right cap (by omega)
        omega
      have harith : (n + 1) * cap + r - cap = n * cap + r := by
        have hs : (n + 1) * cap = n * cap + cap := by ring
        omega
      have hbs : n + 1 ≤ bs.length := by
        simpa using hlen
      obtain ⟨ih1, ih2⟩ := ih bs hbs
      have step : recvPacketCalls cap (b :: bs) ((n + 1) * cap + r) =
          (b, cap, true) :: recvPacketCalls cap bs (n * cap + r) := by
        rw [show recvPacketCalls cap (b :: bs) ((n + 1) * cap + r) =
              if (n + 1) * cap + r ≤ cap ∨ cap = 0 then
                [(b, (n + 1) * cap + r, false)]
              else (b, cap, true) ::
                recvPacketCalls cap bs ((n + 1) * cap + r - cap) from rfl]
        rw [if_neg hcond, harith]
      rw [step]
      refine ⟨?_, ?_⟩
      · simp [ih1]
      · simp [ih2, List.replicate_succ]

/-- Witness for C1 at a concrete input: a 1200-byte packet into 512-byte
buffers is returned as three completions 512/512/176, the first two with
the more-data status. -/
theorem sdio_recv_packet_multibuffer_witness :
    (recvPacketCalls 512 [10, 11, 12, 13] (2 * 512 + 176)).map (fun c => c.1) =
      [10, 11, 12, 13].take (2 + 1) ∧
    (recvPacketCalls 512 [10, 11, 12, 13] (2 * 512 + 176)).map (fun c => c.2) =
      List.replicate 2 (512, true) ++ [(176, false)] :=
  sdio_recv_packet_multibuffer 512 2 176 [10, 11, 12, 13]
    (by decide) (by decide) (by decide) (by decide)

/-- C2: `sdio_slave_send_queue` fails `ESP_ERR_INVALID_ARG` whenever the
length is 0 or exceeds the maximum single-transfer size of 4092 bytes
(`SDIO_SLAVE_RECV_MAX_BUFFER`); with a valid length it fails
`ESP_ERR_TIMEOUT` if the send queue stays full through the whole wait,
and otherwise succeeds with the item appended to the queue (completion
is asynchronous). -/
theorem sdio_send_queue_contract (st : SendState) (addr len arg : ℕ)
    (drains : Bool) :
    SDIO_SLAVE_RECV_MAX_BUFFER = 4092 ∧
    (len = 0 ∨ 4092 < len →
      sdio_slave_send_queue st addr len arg drains = .error .invalidArg) ∧
    (0 < len → len ≤ 4092 →
      st.send_queue_size ≤ st.queue.length → drains = false →
      sdio_slave_send_queue st addr len arg drains = .error .timeout) ∧
    (0 < len → len ≤ 4092 → st.queue.length < st.send_queue_size →
      sdio_slave_send_queue st addr len arg drains =
        .ok { st with queue := st.queue ++ [⟨addr, len, arg⟩] }) ∧
    (0 < len → len ≤ 4092 →
      st.send_queue_size ≤ st.queue.length → drains = true →
      sdio_slave_send_queue st addr len arg drains =
        .ok { st with queue := st.queue.drop 1 ++ [⟨addr, len, arg⟩] }) := by
  refine ⟨rfl, ?_, ?_, ?_, ?_⟩
  · intro hbad
    unfold sdio_slave_send_queue
    rw [if_pos]
    exact hbad
  · intro h1 h2 hfull hdr
    unfold sdio_slave_send_queue
    rw [if_neg (by simp [SDIO_SLAVE_RECV_MAX_BUFFER]; omega), if_pos hfull,
      hdr]
    rfl
  · intro h1 h2 hroom
    unfold sdio_slave_send_queue
    rw [if_neg (by simp [SDIO_SLAVE_RECV_MAX_BUFFER]; omega),
      if_neg (by omega)]
  · intro h1 h2 hfull hdr
    unfold sdio_slave_send_queue
    rw [if_neg (by simp [SDIO_SLAVE_RECV_MAX_BUFFER]; omega), if_pos hfull,
      hdr]
    rfl

/-- Witness for C2 at a concrete input: length 0 and length 4093 are
rejected, a valid item is appended, and a full queue of size 1 that does
not drain times out. -/
theorem sdio_send_queue_contract_witness :
    sdio_slave_send_queue ⟨1, []⟩ 8 0 5 false = .error .invalidArg ∧
    sdio_slave_send_queue ⟨1, []⟩ 8 4093 5 false = .error .invalidArg ∧
    sdio_slave_send_queue ⟨1, []⟩ 8 100 5 false = .ok ⟨1, [⟨8, 100, 5⟩]⟩ ∧
    sdio_slave_send_queue ⟨1, [⟨8, 100, 5⟩]⟩ 16 32 6 false =
      .error .timeout :=
  ⟨(sdio_send_queue_contract ⟨1, []⟩ 8 0 5 false).2.1 (Or.inl rfl),
   (sdio_send_queue_contract ⟨1, []⟩ 8 4093 5 false).2.1 (Or.inr (by decide)),
   (sdio_send_queue_contract ⟨1, []⟩ 8 100 5 false).2.2.2.1
     (by decide) (by decide) (by decide),
   (sdio_send_queue_contract ⟨1, [⟨8, 100, 5⟩]⟩ 16 32 6 false).2.2.1
     (by decide) (by decide) (by decide) rfl⟩

/-- C3: `sdio_slave_write_reg` succeeds for every address in the
general-purpose ranges 0-27 and 32-63 and fails `ESP_ERR_INVALID_ARG`
exactly for the reserved interrupt-vector addresses 28-31 and any
address outside 0-63; `sdio_slave_read_reg` accepts the same
0-27 and 32-63 range. -/
theorem sdio_reg_address_ranges (regs : List ℕ) (pos : ℤ) (reg : ℕ) :
    (((0 ≤ pos ∧ pos ≤ 27) ∨ (32 ≤ pos ∧ pos ≤ 63)) →
      sdio_slave_write_reg regs pos reg = .ok (regs.set pos.toNat reg)) ∧
    (sdio_slave_write_reg regs pos reg = .error .invalidArg ↔
      (28 ≤ pos ∧ pos ≤ 31) ∨ pos < 0 ∨ 63 < pos) ∧
    (regs.length = 64 →
      ((sdio_slave_read_reg regs pos).isSome ↔
        (0 ≤ pos ∧ pos ≤ 27) ∨ (32 ≤ pos ∧ pos ≤ 63))) := by
  refine ⟨?_, ?_, ?_⟩
  · intro hin
    unfold sdio_slave_write_reg
    rw [if_neg (by omega), if_neg (by omega)]
  · unfold sdio_slave_write_reg
    constructor
    · intro h
      by_contra hnot
      push_neg at hnot
      rw [if_neg (by omega), if_neg (by omega)] at h
      exact absurd h (by simp)
    · intro hbad
      rcases hbad with h28 | hlo | hhi
      · rw [if_pos h28]
      · rw [if_neg (by omega), if_pos (Or.inl hlo)]
      · rw [if_neg (by omega), if_pos (Or.inr hhi)]
  · intro hlength
    unfold sdio_slave_read_reg
    constructor
    · intro hsome
      by_contra hnot
      rw [if_neg hnot] at hsome
      exact absurd hsome (by simp)
    · intro hin
      rw [if_pos hin]
      have hlt : pos.toNat < regs.length := by omega
      rw [List.get?_eq_getElem?, List.getElem?_eq_getElem hlt]
      rfl

/-- Witness for C3 at a concrete input: on a 64-byte register file,
address 5 is writable and readable, address 29 is rejected. -/
theorem sdio_reg_address_ranges_witness :
    sdio_slave_write_reg (List.replicate 64 0) 5 9 =
      .ok ((List.replicate 64 0).set 5 9) ∧
    (sdio_slave_write_reg (List.replicate 64 0) 29 9 =
      .error .invalidArg ↔
      ((28:ℤ) ≤ 29 ∧ (29:ℤ) ≤ 31) ∨ (29:ℤ) < 0 ∨ (63:ℤ) < 29) ∧
    ((sdio_slave_read_reg (List.replicate 64 0) 5).isSome ↔
      ((0:ℤ) ≤ 5 ∧ (5:ℤ) ≤ 27) ∨ ((32:ℤ) ≤ 5 ∧ (5:ℤ) ≤ 63)) :=
  ⟨(sdio_reg_address_ranges (List.replicate 64 0) 5 9).1
      (Or.inl (by decide)),
   (sdio_reg_address_ranges (List.replicate 64 0) 29 9).2.1,
   (sdio_reg_address_ranges (List.replicate 64 0) 5 9).2.2 (by simp)⟩

/-- C5: when `sdio_slave_wait_int` succeeds for an interrupt bit it
atomically clears that bit as part of the observation: an immediately
following call for the same bit with zero timeout fails
`ESP_ERR_TIMEOUT`, unless the host has raised the bit again, in which
case the bit is observed (and cleared) once more — no interrupt is ever
delivered twice. -/
theorem sdio_wait_int_test_and_clear (pending : Fin 8 → Bool) (pos : Fin 8)
    (pending' : Fin 8 → Bool)
    (hok : sdio_slave_wait_int pending pos = .ok pending') :
    pending' pos = false ∧
    sdio_slave_wait_int pending' pos = .error .timeout ∧
    sdio_slave_wait_int (host_raise_int pending' pos) pos =
      .ok (fun i => if i = pos then false else pending' i) := by
  unfold sdio_slave_wait_int at hok
  by_cases hp : pending pos = true
  · rw [if_pos hp] at hok
    injection hok with hok
    subst hok
    refine ⟨by simp, ?_, ?_⟩
    · unfold sdio_slave_wait_int
      rw [if_neg (by simp)]
    · unfold sdio_slave_wait_int
      rw [if_pos (by simp [host_raise_int])]
      congr 1
      funext i
      by_cases hi : i = pos
      · simp [hi]
      · simp [hi, host_raise_int]
  · rw [if_neg hp] at hok
    exact absurd hok (by simp)

/-- Witness for C5 at a concrete input: with all eight bits pending,
observing bit 0 clears it and an immediate zero-timeout wait for bit 0
times out. -/
theorem sdio_wait_int_test_and_clear_witness :
    sdio_slave_wait_int
      (fun i => if i = (0 : Fin 8) then false else (fun _ => true) i)
      0 = .error .timeout :=
  (sdio_wait_int_test_and_clear (fun _ => true) 0 _ rfl).2.1

/-- C4: `sdio_slave_recv_unregister_buf` succeeds only while the buffer
is `Idle` and fails `ESP_ERR_INVALID_ARG` when the handle is null or
unknown or the buffer is `QueuedForDMA` or `CompletedAwaitingPickup`;
`sdio_slave_recv_load_buf` moves a buffer from `Idle` to `QueuedForDMA`,
touching no other buffer, and fails `ESP_ERR_INVALID_ARG` when the
handle is null or unknown or the buffer is not `Idle` — every operation
preserves the buffer-state cycle. -/
theorem sdio_buffer_state_cycle (r : Registry) (h : ℕ) :
    (sdio_slave_recv_unregister_buf r none = .error .invalidArg ∧
      sdio_slave_recv_load_buf r none = .error .invalidArg) ∧
    (r.lookup h = none →
      sdio_slave_recv_unregister_buf r (some h) = .error .invalidArg ∧
      sdio_slave_recv_load_buf r (some h) = .error .invalidArg) ∧
    (∀ a, r.lookup h = some (a, BufState.idle) →
      sdio_slave_recv_unregister_buf r (some h) =
        .ok { r with bufs := removeBuf r.bufs h } ∧
      Registry.lookup { r with bufs := removeBuf r.bufs h } h = none) ∧
    (∀ a s, r.lookup h = some (a, s) → s ≠ BufState.idle →
      sdio_slave_recv_unregister_buf r (some h) = .error .invalidArg) ∧
    (∀ a, r.lookup h = some (a, BufState.idle) →
      sdio_slave_recv_load_buf r (some h) =
        .ok { r with bufs := setBufState r.bufs h BufState.queuedForDMA } ∧
      Registry.lookup { r with bufs := setBufState r.bufs h BufState.queuedForDMA }
          h = some (a, BufState.queuedForDMA) ∧
      (∀ h2, h2 ≠ h →
        Registry.lookup
            { r with bufs := setBufState r.bufs h BufState.queuedForDMA } h2 =
          r.lookup h2)) ∧
    (∀ a s, r.lookup h = some (a, s) → s ≠ BufState.idle →
      sdio_slave_recv_load_buf r (some h) = .error .invalidArg) := by
  refine ⟨⟨rfl, rfl⟩, ?_, ?_, ?_, ?_, ?_⟩
  · intro hn
    constructor
    · show (match r.lookup h with
        | some (_, BufState.idle) =>
            Except.ok { r with bufs := removeBuf r.bufs h }
        | _ => Except.error EspErr.invalidArg) = _
      rw [hn]
    · show (match r.lookup h with
        | some (_, BufState.idle) =>
            Except.ok { r with bufs := setBufState r.bufs h BufState.queuedForDMA }
        | _ => Except.error EspErr.invalidArg) = _
      rw [hn]
  · intro a hi
    refine ⟨?_, ?_⟩
    · show (match r.lookup h with
        | some (_, BufState.idle) =>
            Except.ok { r with bufs := removeBuf r.bufs h }
        | _ => Except.error EspErr.invalidArg) = _
      rw [hi]
    · exact lookupBuf_removeBuf r.bufs h
  · intro a s hs hne
    show (match r.lookup h with
      | some (_, BufState.idle) =>
          Except.ok { r with bufs := removeBuf r.bufs h }
      | _ => Except.error EspErr.invalidArg) = _
    rw [hs]
    cases s with
    | idle => exact absurd rfl hne
    | queuedForDMA => rfl
    | completedAwaitingPickup => rfl
  · intro a hi
    refine ⟨?_, ?_, ?_⟩
    · show (match r.lookup h with
        | some (_, BufState.idle) =>
            Except.ok { r with bufs := setBufState r.bufs h BufState.queuedForDMA }
        | _ => Except.error EspErr.invalidArg) = _
      rw [hi]
    · show lookupBuf (setBufState r.bufs h BufState.queuedForDMA) h = _
      rw [lookupBuf_setBufState_self]
      show (Registry.lookup r h).map _ = _
      rw [hi]
      rfl
    · intro h2 hne
      exact lookupBuf_setBufState_ne r.bufs h h2 BufState.queuedForDMA hne
  · intro a s hs hne
    show (match r.lookup h with
      | some (_, BufState.idle) =>
          Except.ok { r with bufs := setBufState r.bufs h BufState.queuedForDMA }
      | _ => Except.error EspErr.invalidArg) = _
    rw [hs]
    cases s with
    | idle => exact absurd rfl hne
    | queuedForDMA => rfl
    | completedAwaitingPickup => rfl

/-- Witness for C4 at a concrete input: in a registry holding buffer 0
idle and buffer 1 queued, unregistering buffer 1 fails, loading buffer 0
queues it and leaves buffer 1 alone. -/
theorem sdio_buffer_state_cycle_witness :
    sdio_slave_recv_unregister_buf
        ⟨4, 2, [(0, 8, BufState.idle), (1, 16, BufState.queuedForDMA)]⟩
        (some 1) = .error .invalidArg ∧
    sdio_slave_recv_load_buf
        ⟨4, 2, [(0, 8, BufState.idle), (1, 16, BufState.queuedForDMA)]⟩
        (some 0) =
      .ok ⟨4, 2, setBufState
        [(0, 8, BufState.idle), (1, 16, BufState.queuedForDMA)] 0
        BufState.queuedForDMA⟩ :=
  ⟨(sdio_buffer_state_cycle
      ⟨4, 2, [(0, 8, BufState.idle), (1, 16, BufState.queuedForDMA)]⟩
      1).2.2.2.1 16 BufState.queuedForDMA rfl (by decide),
   ((sdio_buffer_state_cycle
      ⟨4, 2, [(0, 8, BufState.idle), (1, 16, BufState.queuedForDMA)]⟩
      0).2.2.2.2.1 8 rfl).1⟩

/-- C6: `sdio_slave_reset` and `sdio_slave_reset_hw` fail
`ESP_ERR_INVALID_STATE` whenever the driver is running (stop must be
called first); when the driver is stopped they succeed, leave the
stopped state unchanged, clear every queued buffer back to `Idle` with
no completions pending, and reset the `PKT_LEN` and `TOKEN1`
counters. -/
theorem sdio_reset_contract (st : DriverState) :
    (st.run = DriverRun.running →
      sdio_slave_reset st = .error .invalidState ∧
      sdio_slave_reset_hw st = .error .invalidState) ∧
    (st.run = DriverRun.stopped →
      ∃ st', sdio_slave_reset st = .ok st' ∧
        sdio_slave_reset_hw st = .ok st' ∧
        st'.run = DriverRun.stopped ∧
        (∀ h a s, st'.reg.lookup h = some (a, s) → s = BufState.idle) ∧
        (∀ h p, st.reg.lookup h = some p →
          st'.reg.lookup h = some (p.1, BufState.idle)) ∧
        st'.recvCompleted = [] ∧ st'.pkt_len = 0 ∧ st'.token1 = 0) := by
  constructor
  · intro hr
    constructor
    · unfold sdio_slave_reset
      rw [hr]
    · unfold sdio_slave_reset_hw
      rw [hr]
  · intro hs
    refine ⟨{ st with
        reg := { st.reg with
                 bufs := st.reg.bufs.map fun b => (b.1, b.2.1, BufState.idle) },
        recvCompleted := [], pkt_len := 0, token1 := 0 },
      ?_, ?_, hs, ?_, ?_, rfl, rfl, rfl⟩
    · unfold sdio_slave_reset
      rw [hs]
    · unfold sdio_slave_reset_hw
      rw [hs]
    · intro h a s hl
      have := lookupBuf_map_idle st.reg.bufs h
      rw [show Registry.lookup { st.reg with
            bufs := st.reg.bufs.map fun b => (b.1, b.2.1, BufState.idle) } h =
          lookupBuf (st.reg.bufs.map fun b => (b.1, b.2.1, BufState.idle)) h
          from rfl, this] at hl
      cases hp : lookupBuf st.reg.bufs h with
      | none =>
        rw [hp] at hl
        simp at hl
      | some p =>
        rw [hp] at hl
        simp only [Option.map_some', Option.some.injEq, Prod.mk.injEq] at hl
        exact hl.2.symm
    · intro h p hl
      have := lookupBuf_map_idle st.reg.bufs h
      show lookupBuf (st.reg.bufs.map fun b => (b.1, b.2.1, BufState.idle)) h
        = _
      rw [this]
      rw [show Registry.lookup st.reg h = lookupBuf st.reg.bufs h from rfl]
        at hl
      rw [hl]
      rfl

/-- Witness for C6 at a concrete input: reset of a stopped driver with a
queued buffer and pending data succeeds and clears everything; the
cleared state is exhibited. -/
theorem sdio_reset_contract_witness :
    ∃ st', sdio_slave_reset
        ⟨DriverRun.stopped, ⟨4, 1, [(0, 8, BufState.queuedForDMA)]⟩,
          [0], 96, 3⟩ = .ok st' ∧
      st'.recvCompleted = [] ∧ st'.pkt_len = 0 ∧ st'.token1 = 0 := by
  obtain ⟨st', h1, _, _, _, _, h6, h7, h8⟩ :=
    (sdio_reset_contract
      ⟨DriverRun.stopped, ⟨4, 1, [(0, 8, BufState.queuedForDMA)]⟩,
        [0], 96, 3⟩).2 rfl
  exact ⟨st', h1, h6, h7, h8⟩

/-- C7: `sdio_slave_recv_register_buf` fails `ESP_ERR_INVALID_ARG` when
the address is not 32-bit aligned and DMA capable, fails
`ESP_ERR_NO_MEM` when the descriptor slots are exhausted, and otherwise
returns a fresh handle that remains a stable identity for the buffer —
it still resolves to the same address after further registrations and
loads of other buffers — for as long as it stays registered. -/
theorem sdio_register_buf_contract (r : Registry) (start : ℕ) (dma : Bool)
    (hf : r.Fresh) :
    (¬(start % 4 = 0 ∧ dma = true) →
      sdio_slave_recv_register_buf r start dma = .error .invalidArg) ∧
    (start % 4 = 0 → dma = true → r.capacity ≤ r.bufs.length →
      sdio_slave_recv_register_buf r start dma = .error .noMem) ∧
    (start % 4 = 0 → dma = true → r.bufs.length < r.capacity →
      ∃ r', sdio_slave_recv_register_buf r start dma = .ok (r', r.next) ∧
        r'.Fresh ∧
        r'.lookup r.next = some (start, BufState.idle) ∧
        (∀ h2, h2 ≠ r.next → r'.lookup h2 = r.lookup h2) ∧
        (∀ start2 dma2 r2 h2,
          sdio_slave_recv_register_buf r' start2 dma2 = .ok (r2, h2) →
            r2.lookup r.next = some (start, BufState.idle)) ∧
        (∀ hld r2, hld ≠ r.next →
          sdio_slave_recv_load_buf r' (some hld) = .ok r2 →
            r2.lookup r.next = some (start, BufState.idle))) := by
  refine ⟨?_, ?_, ?_⟩
  · intro hbad
    unfold sdio_slave_recv_register_buf
    rw [if_neg hbad]
  · intro ha hd hfull
    unfold sdio_slave_recv_register_buf
    rw [if_pos ⟨ha, hd⟩, if_pos hfull]
  · intro ha hd hroom
    have hnone : lookupBuf r.bufs r.next = none :=
      lookupBuf_none_of_fresh r.bufs r.next hf
    have hself : lookupBuf (r.bufs ++ [(r.next, start, BufState.idle)])
        r.next = some (start, BufState.idle) := by
      rw [lookupBuf_append_of_none _ _ _ hnone]
      simp [lookupBuf]
    refine ⟨{ r with
        next := r.next + 1,
        bufs := r.bufs ++ [(r.next, start, BufState.idle)] },
      ?_, ?_, hself, ?_, ?_, ?_⟩
    · unfold sdio_slave_recv_register_buf
      rw [if_pos ⟨ha, hd⟩, if_neg (by omega)]
    · intro b hb
      rcases List.mem_append.mp hb with hl | hr
      · exact Nat.lt_succ_of_lt (hf b hl)
      · have : b = (r.next, start, BufState.idle) := by simpa using hr
        rw [this]
        exact Nat.lt_succ_self r.next
    · intro h2 hne
      show lookupBuf (r.bufs ++ [(r.next, start, BufState.idle)]) h2 = _
      cases hp : lookupBuf r.bufs h2 with
      | none =>
        rw [lookupBuf_append_of_none _ _ _ hp]
        show _ = Registry.lookup r h2
        rw [show Registry.lookup r h2 = lookupBuf r.bufs h2 from rfl, hp]
        have hne2 : ¬r.next = h2 := fun he => hne he.symm
        simp [lookupBuf, hne2]
      | some p =>
        rw [lookupBuf_append_of_some _ _ _ _ hp]
        show _ = Registry.lookup r h2
        rw [show Registry.lookup r h2 = lookupBuf r.bufs h2 from rfl, hp]
    · intro start2 dma2 r2 h2 hreg
      unfold sdio_slave_recv_register_buf at hreg
      split at hreg
      · split at hreg
        · exact absurd hreg (by simp)
        · injection hreg with hreg
          have hr2 : r2 = { r with
              next := r.next + 1 + 1,
              bufs := (r.bufs ++ [(r.next, start, BufState.idle)]) ++
                [(r.next + 1, start2, BufState.idle)] } :=
            (congrArg Prod.fst hreg).symm
          rw [hr2]
          exact lookupBuf_append_of_some _ _ _ _ hself
      · exact absurd hreg (by simp)
    · intro hld r2 hne hload
      rw [load_buf_ok_bufs _ _ _ hload]
      show lookupBuf (setBufState
        (r.bufs ++ [(r.next, start, BufState.idle)]) hld
        BufState.queuedForDMA) r.next = _
      rw [lookupBuf_setBufState_ne _ _ _ _ (fun he => hne he.symm)]
      exact hself

/-- Witness for C7 at a concrete input: registering an aligned buffer in
an empty two-slot registry yields handle 0 resolving to the buffer. -/
theorem sdio_register_buf_contract_witness :
    ∃ r', sdio_slave_recv_register_buf ⟨2, 0, []⟩ 8 true = .ok (r', 0) ∧
      r'.lookup 0 = some (8, BufState.idle) := by
  obtain ⟨r', h1, _, h3, _⟩ :=
    (sdio_register_buf_contract ⟨2, 0, []⟩ 8 true
      (fun b hb => absurd hb (by simp))).2.2 rfl rfl (by decide)
  exact ⟨r', h1, h3⟩

end EspIdf
